import Mathlib

/-!
Order router of the food-ordering backend

A shallow embedding of `backend/src/routers/order.router.js`.

* Documents are records; a collection is the list of its documents in insertion order.
* Identifiers (`_id`, references) are strings; a reference that may be missing or falsy in the
  request JSON is an `Option`.
* Prices are numbers that the code only compares with `===`/`!==` and copies; they are integers
  here (an amount in minor units).
* A handler is a function from the database state (and the request) to the response and the new
  database state. An exception that escapes a handler is the response `serverError`.
* `sendEmailReceipt` is recorded in the `receipts` log of the state.
-/

namespace OrderRouter

/-! ## Data model -/

/-- Modelled from the spec: `constants/orderStatus.js` is not among the sources. The open status
of an order, `OrderStatus.NEW`. -/
def OrderStatus.NEW : String := "NEW"

/-- Modelled from the spec: `constants/orderStatus.js` is not among the sources. The paid status
of an order, `OrderStatus.PAYED` (the router also writes it as the literal `'PAYED'`). -/
def OrderStatus.PAYED : String := "PAYED"

/-- A catalog variant of a product: an entry of `product.quantities`. -/
structure Quantity where
  size : String
  price : Int
  deriving DecidableEq, Repr

/-- A product of the catalog (`FoodModel`); only what the router reads. -/
structure Food where
  id : String
  quantities : List Quantity
  deriving DecidableEq, Repr

/-- An account of the user directory (`UserModel`); only what the router reads. -/
structure User where
  id : String
  isAdmin : Bool
  deriving DecidableEq, Repr

/-- An entry of `order.items`. `product` is `none` when the field is missing or falsy. -/
structure OrderItem where
  product : Option String
  size : String
  price : Int
  quantity : Nat
  deriving DecidableEq, Repr

/-- A document of the order collection. -/
structure Order where
  id : String
  user : String
  items : List OrderItem
  status : String
  totalPrice : Int
  paymentId : Option String
  createdAt : Nat
  deriving DecidableEq, Repr

/-- A document of the payment collection. -/
structure Payment where
  id : String
  order : String
  user : String
  paymentId : String
  method : String
  amount : Int
  status : String
  deriving DecidableEq, Repr

/-- The database and the log of dispatched receipts. -/
structure Db where
  foods : List Food
  users : List User
  orders : List Order
  payments : List Payment
  receipts : List Order
  deriving DecidableEq, Repr

/-- The body of `POST /create`: the candidate order. `status`, `paymentId` and `user` are present
when the client sent them. -/
structure CreateBody where
  items : List OrderItem
  totalPrice : Int
  status : Option String
  paymentId : Option String
  user : Option String
  deriving DecidableEq, Repr

/-- The body of `PUT /pay`: `{ paymentId, method, amount, status }`, the last three optional. -/
structure PayBody where
  paymentId : String
  method : Option String
  amount : Option Int
  status : Option String
  deriving DecidableEq, Repr

/-- An order with its references resolved by `populate`. -/
structure PopulatedOrder where
  order : Order
  products : List (Option Food)
  user : Option User
  deriving DecidableEq, Repr

/-- What a handler sends. -/
inductive Response where
  | badRequest (msg : String)
  | notFound (msg : String)
  | serverError
  | unauthorized
  | order (o : Order)
  | populated (o : PopulatedOrder)
  | orders (os : List PopulatedOrder)
  | paid (orderId : String) (paymentId : String) (paymentStatus : String)
  | payment (p : Payment)
  | message (msg : String)
  | statuses (all : List String)
  | count (n : Nat)
  deriving DecidableEq, Repr

/-! ## Collections -/

/-- The call `FoodModel.findById(ref)`; a missing reference finds nothing. -/
def FoodModel.findById (foods : List Food) : Option String → Option Food
  | none => none
  | some ref => foods.find? (fun f => f.id == ref)

/-- The call `UserModel.findById(id)`. -/
def UserModel.findById (users : List User) (id : String) : Option User :=
  users.find? (fun u => u.id == id)

/-- The call `OrderModel.findById(id)`. -/
def OrderModel.findById (orders : List Order) (id : String) : Option Order :=
  orders.find? (fun o => o.id == id)

/-- The call `PaymentModel.findById(id)`. -/
def PaymentModel.findById (payments : List Payment) (id : String) : Option Payment :=
  payments.find? (fun p => p.id == id)

/-- The write of `order.save()` on a loaded document: the modified paths are set on the stored
document that has the given `_id`. -/
def OrderModel.updateOne (id : String) (f : Order → Order) : List Order → List Order
  | [] => []
  | o :: rest => if o.id == id then f o :: rest else o :: OrderModel.updateOne id f rest

/-- The write of `PaymentModel.findByIdAndUpdate(id, { status })`. -/
def PaymentModel.updateOne (id : String) (f : Payment → Payment) : List Payment → List Payment
  | [] => []
  | p :: rest => if p.id == id then f p :: rest else p :: PaymentModel.updateOne id f rest

/-- The removal of `OrderModel.findByIdAndDelete(id)`. -/
def OrderModel.deleteOne (id : String) : List Order → List Order
  | [] => []
  | o :: rest => if o.id == id then rest else o :: OrderModel.deleteOne id rest

/-- The cursor modifier `.sort('-createdAt')`: creation time descending, stable. -/
def sortByCreatedAtDesc (orders : List Order) : List Order :=
  orders.insertionSort (fun a b => b.createdAt ≤ a.createdAt)

/-- The resolution `.populate('items.product')`. -/
def populateProducts (foods : List Food) (o : Order) : PopulatedOrder :=
  { order := o, products := o.items.map (fun item => FoodModel.findById foods item.product),
    user := none }

/-- The resolution `.populate('user')` on top of an already built result. -/
def populateUser (users : List User) (p : PopulatedOrder) : PopulatedOrder :=
  { p with user := UserModel.findById users p.order.user }

/-- Modelled from the spec: `models/order.model.js` is not among the sources. The document that
`new OrderModel({ ...order, user })` builds from the spread request body and the owner the
handler passes: the items, the total price and the payment id are the body's, the owner is the
one passed, the status is the one the store gives an order at creation, `NEW`, and the store
supplies the identity and the creation time. -/
def OrderModel.new (newId : String) (now : Nat) (order : CreateBody) (user : String) : Order :=
  { id := newId, user := user, items := order.items, status := OrderStatus.NEW,
    totalPrice := order.totalPrice, paymentId := order.paymentId, createdAt := now }

/-! ## Handlers -/

/-- The validation loop of `POST /create`: the message of the first rule an item violates. -/
def validateItems (foods : List Food) : List OrderItem → Option String
  | [] => none
  | item :: rest =>
    match FoodModel.findById foods item.product with
    | none => some "Invalid product in cart!"
    | some product =>
      match product.quantities.find? (fun q => q.size == item.size) with
      | none => some "Invalid size for product!"
      | some quantityObj =>
        if quantityObj.price ≠ item.price then some "Price mismatch!"
        else validateItems foods rest

/-- The handler of `POST /create`. -/
def create (db : Db) (caller : String) (order : CreateBody) (newId : String) (now : Nat) :
    Response × Db :=
  if order.items.length ≤ 0 then (.badRequest "Cart Is Empty!", db)
  else
    match validateItems db.foods order.items with
    | some msg => (.badRequest msg, db)
    | none =>
      let items := order.items.filter (fun item => item.product.isSome)
      if items.length = 0 then (.badRequest "No valid products in cart!", db)
      else
        let newOrder := OrderModel.new newId now { order with items := items } caller
        (.order newOrder, { db with orders := db.orders ++ [newOrder] })

/-- The helper `getNewOrderForCurrentUser`: the caller's `NEW` orders, latest first, first one. -/
def getNewOrderForCurrentUser (orders : List Order) (caller : String) : Option Order :=
  (sortByCreatedAtDesc
    (orders.filter (fun o => o.user == caller && o.status == OrderStatus.NEW))).head?

/-- The handler of `PUT /pay`. -/
def pay (db : Db) (caller : String) (body : PayBody) (newId : String) : Response × Db :=
  let paymentId := body.paymentId
  let method := body.method.getD "PayPal"
  let status := body.status.getD "COMPLETED"
  match getNewOrderForCurrentUser db.orders caller with
  | none => (.badRequest "Order Not Found!", db)
  | some order =>
    let payment : Payment :=
      { id := newId, order := order.id, user := caller, paymentId := paymentId,
        method := method, amount := order.totalPrice, status := status }
    let db1 := { db with payments := db.payments ++ [payment] }
    if status = "COMPLETED" then
      let set := fun (o : Order) =>
        { o with paymentId := some paymentId, status := OrderStatus.PAYED }
      let db2 :=
        { db1 with
          orders := OrderModel.updateOne order.id set db1.orders
          receipts := db1.receipts ++ [set order] }
      (.paid order.id payment.id status, db2)
    else (.paid order.id payment.id status, db1)

/-- The handler of `GET /track/:orderId`. -/
def track (db : Db) (caller : String) (orderId : String) : Response :=
  match UserModel.findById db.users caller with
  | none => .serverError
  | some user =>
    match db.orders.find? (fun o => o.id == orderId && (user.isAdmin || o.user == user.id)) with
    | none => .unauthorized
    | some order => .populated (populateProducts db.foods order)

/-- The handler of `DELETE /:id`. -/
def deleteOrder (db : Db) (id : String) : Response × Db :=
  match OrderModel.findById db.orders id with
  | none => (.notFound "Order not found", db)
  | some _ =>
    (.message "Order deleted successfully",
      { db with orders := OrderModel.deleteOne id db.orders })

/-- The handler of `GET /newOrderForCurrentUser`. -/
def newOrderForCurrentUser (db : Db) (caller : String) : Response :=
  match db.orders.find? (fun o => o.user == caller && o.status == OrderStatus.NEW) with
  | none => .notFound "No active order found"
  | some order => .populated (populateUser db.users (populateProducts db.foods order))

/-- The handler of `GET /:status?`; `status` is `none` when the segment is absent. -/
def listByStatus (db : Db) (caller : String) (status : Option String) : Response :=
  match UserModel.findById db.users caller with
  | none => .serverError
  | some user =>
    let orders := db.orders.filter (fun o =>
      (user.isAdmin || o.user == user.id) &&
        (match status with
          | none => true
          | some s => o.status == s))
    .orders ((sortByCreatedAtDesc orders).map (populateProducts db.foods))

/-- The query of `GET /orders`: each field is `none` when absent or falsy. -/
structure OrdersQuery where
  user : Option String
  status : Option String
  fromTime : Option Nat
  toTime : Option Nat
  deriving DecidableEq, Repr

/-- The handler of `GET /orders` (behind the admin check). -/
def adminOrders (db : Db) (query : OrdersQuery) : Response :=
  let orders := db.orders.filter (fun o =>
    (match query.user with
      | none => true
      | some u => o.user == u) &&
    (match query.status with
      | none => true
      | some s => o.status == s) &&
    (match query.fromTime with
      | none => true
      | some t => decide (t ≤ o.createdAt)) &&
    (match query.toTime with
      | none => true
      | some t => decide (o.createdAt ≤ t)))
  .orders ((sortByCreatedAtDesc orders).map
    (fun o => populateUser db.users (populateProducts db.foods o)))

/-- The handler of `PATCH /order/:id/status` (behind the admin check). -/
def patchOrderStatus (db : Db) (id : String) (status : String) : Response × Db :=
  match OrderModel.findById db.orders id with
  | none => (.notFound "Order not found", db)
  | some order =>
    (.order { order with status := status },
      { db with orders := OrderModel.updateOne id (fun o => { o with status := status }) db.orders })

/-- The handler of `PATCH /payment/:id/status` (behind the admin check). -/
def patchPaymentStatus (db : Db) (id : String) (status : String) : Response × Db :=
  match PaymentModel.findById db.payments id with
  | none => (.notFound "Payment not found", db)
  | some found =>
    let payment : Payment := { found with status := status }
    let db1 :=
      { db with
        payments := PaymentModel.updateOne id (fun p => { p with status := status }) db.payments }
    if status = "COMPLETED" then
      match OrderModel.findById db1.orders payment.order with
      | none => (.payment payment, db1)
      | some order =>
        if order.status ≠ OrderStatus.PAYED then
          let set := fun (o : Order) =>
            { o with status := OrderStatus.PAYED, paymentId := some payment.paymentId }
          (.payment payment, { db1 with orders := OrderModel.updateOne order.id set db1.orders })
        else (.payment payment, db1)
    else (.payment payment, db1)

/-- The handler of `GET /user-purchase-count`. -/
def userPurchaseCount (db : Db) (caller : String) : Response :=
  .count (db.orders.filter (fun o => o.user == caller && o.status == "PAYED")).length

/-- The handler of `GET /order/:id`. -/
def orderById (db : Db) (id : String) : Response :=
  match OrderModel.findById db.orders id with
  | none => .notFound "Order not found"
  | some order => .populated (populateProducts db.foods order)

/-- Modelled from the spec: `middleware/admin.mid.js` is not among the sources. The role check of
the admin-only routes: the caller is an account with the admin flag. -/
def admin (db : Db) (caller : String) : Bool :=
  match UserModel.findById db.users caller with
  | none => false
  | some user => user.isAdmin

/-! ## Routing -/

/-- The HTTP methods the router registers. -/
inductive Method where
  | GET | POST | PUT | PATCH | DELETE
  deriving DecidableEq, Repr

/-- A segment of a route path: a literal, a parameter `:name`, an optional parameter `:name?`. -/
inductive Seg where
  | lit (s : String)
  | param (name : String)
  | optional (name : String)
  deriving DecidableEq, Repr

/-- The handlers, named after their routes. -/
inductive Endpoint where
  | create | pay | track | deleteOrder | newOrderForCurrentUser | allstatus | listByStatus
  | adminOrders | patchOrderStatus | patchPaymentStatus | userPurchaseCount | orderById
  deriving DecidableEq, Repr

/-- The routes of the router in their registration order. -/
def routes : List (Method × List Seg × Endpoint) :=
  [ (.POST, [.lit "create"], .create),
    (.PUT, [.lit "pay"], .pay),
    (.GET, [.lit "track", .param "orderId"], .track),
    (.DELETE, [.param "id"], .deleteOrder),
    (.GET, [.lit "newOrderForCurrentUser"], .newOrderForCurrentUser),
    (.GET, [.lit "allstatus"], .allstatus),
    (.GET, [.optional "status"], .listByStatus),
    (.GET, [.lit "orders"], .adminOrders),
    (.PATCH, [.lit "order", .param "id", .lit "status"], .patchOrderStatus),
    (.PATCH, [.lit "payment", .param "id", .lit "status"], .patchPaymentStatus),
    (.GET, [.lit "user-purchase-count"], .userPurchaseCount),
    (.GET, [.lit "order", .param "id"], .orderById) ]

/-- The letters of a segment in lower case: route literals match without regard to case. -/
def lower (s : String) : List Char := s.toList.map Char.toLower

/-- The match of a route path against the segments of a request path: the parameter values in
path order, or `none` when the path does not match. -/
def matchPath : List Seg → List String → Option (List String)
  | [], [] => some []
  | [.optional _], [] => some []
  | .lit s :: ps, x :: xs => if lower s = lower x then matchPath ps xs else none
  | .param _ :: ps, x :: xs => (matchPath ps xs).map (fun vs => x :: vs)
  | .optional _ :: ps, x :: xs => (matchPath ps xs).map (fun vs => x :: vs)
  | _, _ => none

/-- The first route, in registration order, whose method and path match the request. -/
def dispatchIn : List (Method × List Seg × Endpoint) → Method → List String →
    Option (Endpoint × List String)
  | [], _, _ => none
  | (m, pattern, e) :: rest, method, path =>
    if m = method then
      match matchPath pattern path with
      | some params => some (e, params)
      | none => dispatchIn rest method path
    else dispatchIn rest method path

/-- The route that handles a request to the order router. -/
def dispatch (method : Method) (path : List String) : Option (Endpoint × List String) :=
  dispatchIn routes method path

/-- A `GET` request served by the router: the handler of the first matching route answers.
`allStatus` is `Object.values(OrderStatus)`, whose source file is not among the sources. -/
def serveGet (allStatus : List String) (db : Db) (caller : String) (path : List String)
    (query : OrdersQuery) : Response :=
  match dispatch .GET path with
  | some (.track, [orderId]) => track db caller orderId
  | some (.newOrderForCurrentUser, _) => newOrderForCurrentUser db caller
  | some (.allstatus, _) => .statuses allStatus
  | some (.listByStatus, params) => listByStatus db caller params.head?
  | some (.adminOrders, _) => if admin db caller then adminOrders db query else .unauthorized
  | some (.userPurchaseCount, _) => userPurchaseCount db caller
  | some (.orderById, [id]) => orderById db id
  | _ => .notFound "no route"

/-! ## Runs of the mutating endpoints -/

/-- A request to one of the endpoints that write to the stores. -/
inductive Op where
  | create (caller : String) (body : CreateBody) (newId : String) (now : Nat)
  | pay (caller : String) (body : PayBody) (newId : String)
  | deleteOrder (id : String)
  | patchOrderStatus (caller : String) (id : String) (status : String)
  | patchPaymentStatus (caller : String) (id : String) (status : String)
  deriving DecidableEq, Repr

/-- The state after one request; an admin-only route does nothing for a caller who fails the
role check. -/
def step (db : Db) : Op → Db
  | .create caller body newId now => (create db caller body newId now).2
  | .pay caller body newId => (pay db caller body newId).2
  | .deleteOrder id => (deleteOrder db id).2
  | .patchOrderStatus caller id status =>
    if admin db caller then (patchOrderStatus db id status).2 else db
  | .patchPaymentStatus caller id status =>
    if admin db caller then (patchPaymentStatus db id status).2 else db

/-- The state after a sequence of requests. -/
def run (db : Db) (ops : List Op) : Db := ops.foldl step db

/-! ## Predicates of the statements -/

/-- No two documents of the order collection share an `_id` (the store's guarantee). -/
def UniqueIds (orders : List Order) : Prop := (orders.map (fun o => o.id)).Nodup

instance (orders : List Order) : Decidable (UniqueIds orders) :=
  inferInstanceAs (Decidable (List.Nodup (orders.map (fun (o : Order) => o.id))))

/-- The number of orders a user owns in `NEW` status. -/
def countNew (orders : List Order) (u : String) : Nat :=
  (orders.filter (fun o => o.user == u && o.status == OrderStatus.NEW)).length

/-- Every user owns at most one order in `NEW` status. -/
def AtMostOneNew (orders : List Order) : Prop := ∀ u, countNew orders u ≤ 1

/-- An item names a product of the catalog, a size the product has, and the catalog price of
that size. -/
def ItemMatches (foods : List Food) (item : OrderItem) : Prop :=
  ∃ product quantityObj, FoodModel.findById foods item.product = some product ∧
    product.quantities.find? (fun q => q.size == item.size) = some quantityObj ∧
    quantityObj.price = item.price

/-- An item names a product of the catalog and a size the product has, and claims a price that
differs from the catalog price of that size. -/
def PriceMismatch (foods : List Food) (item : OrderItem) : Prop :=
  ∃ product quantityObj, FoodModel.findById foods item.product = some product ∧
    product.quantities.find? (fun q => q.size == item.size) = some quantityObj ∧
    quantityObj.price ≠ item.price

/-! ## Example states -/

/-- A catalog with one product in two sizes. -/
def exFoods : List Food :=
  [{ id := "f1", quantities := [{ size := "M", price := 999 }, { size := "L", price := 1299 }] }]

/-- Two customers and an administrator. -/
def exUsers : List User :=
  [{ id := "u1", isAdmin := false }, { id := "u2", isAdmin := false },
    { id := "admin", isAdmin := true }]

/-- A cart line that matches the catalog. -/
def exItem : OrderItem := { product := some "f1", size := "M", price := 999, quantity := 2 }

/-- An order holding the example cart line. -/
def exOrder (id user status : String) (createdAt : Nat) : Order :=
  { id := id, user := user, items := [exItem], status := status, totalPrice := 1998,
    paymentId := none, createdAt := createdAt }

/-- The stores before the first request. -/
def dbEmpty : Db :=
  { foods := exFoods, users := exUsers, orders := [], payments := [], receipts := [] }

/-- A state in which `u1` owns two open orders and `u2` one. -/
def dbTwoNew : Db :=
  { dbEmpty with
    orders := [exOrder "o1" "u1" "NEW" 1, exOrder "o2" "u1" "NEW" 2, exOrder "o3" "u2" "NEW" 3] }

/-- A checkout of the example cart line without any extra field. -/
def exCreateBody : CreateBody :=
  { items := [exItem], totalPrice := 1998, status := none, paymentId := none, user := none }

/-- A checkout whose first line names a product the catalog does not have and whose second line
claims a wrong price. -/
def exMixedBody : CreateBody :=
  { items := [{ product := some "f9", size := "M", price := 999, quantity := 1 },
      { product := some "f1", size := "M", price := 500, quantity := 1 }],
    totalPrice := 1499, status := none, paymentId := none, user := none }

/-- A checkout whose second line claims a wrong price after a line that matches the catalog. -/
def exMismatchBody : CreateBody :=
  { items := [exItem, { product := some "f1", size := "L", price := 1, quantity := 1 }],
    totalPrice := 1999, status := none, paymentId := none, user := none }

/-- A checkout of the example cart line that also carries `status`, `paymentId` and `user`. -/
def exForgedBody : CreateBody :=
  { items := [exItem], totalPrice := 1998, status := some "PAYED", paymentId := some "tx_0",
    user := some "u2" }

/-- A state in which `u1` owns one open order. -/
def dbOneNew : Db := { dbEmpty with orders := [exOrder "o1" "u1" "NEW" 1] }

/-- A state in which `u1` owns one paid order. -/
def dbPaid : Db := { dbEmpty with orders := [exOrder "o1" "u1" "PAYED" 1] }

/-- A state in which `u1` has one pending payment for an open order. -/
def dbPending : Db :=
  { dbOneNew with
    payments := [{ id := "p1", order := "o1", user := "u1", paymentId := "tx_1",
                   method := "PayPal", amount := 1998, status := "PENDING" }] }

/-- A state in which `u1` owns a paid order `o1`, settled under the payment id `tx_0`, and an
open order `o2`, and in which a second, pending payment `p1` is linked to the paid order. -/
def dbSettled : Db :=
  { dbEmpty with
    orders := [{ exOrder "o1" "u1" "PAYED" 1 with paymentId := some "tx_0" },
               exOrder "o2" "u1" "NEW" 2]
    payments := [{ id := "p1", order := "o1", user := "u1", paymentId := "tx_1",
                   method := "PayPal", amount := 1998, status := "PENDING" }] }

/-- A checkout, a pending payment, and an administrator marking the order as shipped. -/
def exShippedRun : List Op :=
  [.create "u1" exCreateBody "o1" 1,
    .pay "u1" { paymentId := "tx_1", method := none, amount := none, status := some "PENDING" }
      "p1",
    .patchOrderStatus "admin" "o1" "SHIPPED"]

/-! ## Lemmas on the collections -/

theorem status_new_ne_payed : OrderStatus.NEW ≠ OrderStatus.PAYED := by decide

theorem sortByCreatedAtDesc_perm (l : List Order) : (sortByCreatedAtDesc l).Perm l :=
  List.perm_insertionSort _ l

theorem sortByCreatedAtDesc_sorted (l : List Order) :
    (sortByCreatedAtDesc l).Sorted (fun a b => b.createdAt ≤ a.createdAt) := by
  haveI : IsTotal Order (fun a b => b.createdAt ≤ a.createdAt) :=
    ⟨fun a b => Nat.le_total b.createdAt a.createdAt⟩
  haveI : IsTrans Order (fun a b => b.createdAt ≤ a.createdAt) :=
    ⟨fun _ _ _ h1 h2 => Nat.le_trans h2 h1⟩
  exact List.sorted_insertionSort _ l

/-- What `getNewOrderForCurrentUser` finds is a `NEW` order of the caller, and none of the
caller's `NEW` orders was created later. -/
theorem getNewOrderForCurrentUser_spec {orders : List Order} {caller : String} {o : Order}
    (h : getNewOrderForCurrentUser orders caller = some o) :
    o ∈ orders ∧ o.user = caller ∧ o.status = OrderStatus.NEW ∧
      ∀ o' ∈ orders, o'.user = caller → o'.status = OrderStatus.NEW →
        o'.createdAt ≤ o.createdAt := by
  unfold getNewOrderForCurrentUser at h
  generalize hl : orders.filter (fun o => o.user == caller && o.status == OrderStatus.NEW) = l at h
  have hperm := sortByCreatedAtDesc_perm l
  have hsorted := sortByCreatedAtDesc_sorted l
  cases hs : sortByCreatedAtDesc l with
  | nil => rw [hs] at h; simp at h
  | cons x t =>
    rw [hs] at h hperm hsorted
    simp only [List.head?_cons, Option.some.injEq] at h
    subst h
    have hmem : ∀ y, y ∈ l ↔ y ∈ orders ∧ y.user = caller ∧ y.status = OrderStatus.NEW := by
      intro y
      rw [← hl]
      simp [List.mem_filter]
    have hx : x ∈ l := hperm.subset (List.mem_cons_self x t)
    obtain ⟨h1, h2, h3⟩ := (hmem x).1 hx
    refine ⟨h1, h2, h3, ?_⟩
    intro o' ho' hu hst
    have ho'l : o' ∈ l := (hmem o').2 ⟨ho', hu, hst⟩
    have : o' ∈ x :: t := hperm.symm.subset ho'l
    rcases List.mem_cons.1 this with rfl | ht
    · exact Nat.le_refl _
    · exact (List.sorted_cons.1 hsorted).1 o' ht

/-- A caller who owns a `NEW` order has a current order. -/
theorem getNewOrderForCurrentUser_isSome {orders : List Order} {caller : String}
    (h : ∃ o ∈ orders, o.user = caller ∧ o.status = OrderStatus.NEW) :
    ∃ o, getNewOrderForCurrentUser orders caller = some o := by
  obtain ⟨o, ho, hu, hst⟩ := h
  unfold getNewOrderForCurrentUser
  have hmem : o ∈ orders.filter (fun o => o.user == caller && o.status == OrderStatus.NEW) := by
    simp [List.mem_filter, ho, hu, hst]
  have hperm := sortByCreatedAtDesc_perm
    (orders.filter (fun o => o.user == caller && o.status == OrderStatus.NEW))
  have hmem2 := hperm.symm.subset hmem
  cases hs : sortByCreatedAtDesc
      (orders.filter (fun o => o.user == caller && o.status == OrderStatus.NEW)) with
  | nil => rw [hs] at hmem2; simp at hmem2
  | cons x t => exact ⟨x, rfl⟩

theorem findById_of_mem {orders : List Order} (hu : UniqueIds orders) {o : Order}
    (ho : o ∈ orders) : OrderModel.findById orders o.id = some o := by
  unfold OrderModel.findById
  induction orders with
  | nil => simp at ho
  | cons x rest ih =>
    unfold UniqueIds at hu
    simp only [List.map_cons, List.nodup_cons] at hu
    rcases List.mem_cons.1 ho with rfl | hr
    · simp
    · have hne : x.id ≠ o.id := by
        intro heq
        apply hu.1
        rw [heq]
        exact List.mem_map_of_mem (fun o => o.id) hr
      simp only [List.find?_cons]
      have : (x.id == o.id) = false := by simpa using hne
      rw [this]
      exact ih hu.2 hr

theorem findById_updateOne {orders : List Order} {id : String} {f : Order → Order} {o : Order}
    (hf : ∀ x, (f x).id = x.id) (h : OrderModel.findById orders id = some o) :
    OrderModel.findById (OrderModel.updateOne id f orders) id = some (f o) := by
  unfold OrderModel.findById at *
  induction orders with
  | nil => simp at h
  | cons x rest ih =>
    simp only [List.find?_cons] at h
    unfold OrderModel.updateOne
    by_cases hx : (x.id == id) = true
    · rw [hx] at h
      simp only [Option.some.injEq] at h
      subst h
      have hx2 : ((f x).id == id) = true := by rw [hf]; exact hx
      simp [hx, hx2]
    · have hx1 : (x.id == id) = false := by simpa using hx
      rw [hx1] at h
      simp only [hx1, List.find?_cons, Bool.false_eq_true, if_false]
      exact ih h

theorem findById_mem {orders : List Order} {id : String} {o : Order}
    (h : OrderModel.findById orders id = some o) : o ∈ orders ∧ o.id = id := by
  unfold OrderModel.findById at h
  have h1 := List.mem_of_find?_eq_some h
  have h2 := List.find?_some h
  exact ⟨h1, by simpa using h2⟩

/-- The update by `_id` relates the collection before and after document by document: a
document is either untouched, or it is the one `findById` returns and it is updated. -/
theorem updateOne_forall₂ (id : String) (f : Order → Order) (orders : List Order) :
    List.Forall₂ (fun a b => b = a ∨ (OrderModel.findById orders id = some a ∧ b = f a)) orders
      (OrderModel.updateOne id f orders) := by
  induction orders with
  | nil => unfold OrderModel.updateOne; exact List.Forall₂.nil
  | cons x rest ih =>
    unfold OrderModel.updateOne
    by_cases hx : (x.id == id) = true
    · simp only [hx, if_true]
      refine List.Forall₂.cons (Or.inr ⟨?_, rfl⟩) ?_
      · simp [OrderModel.findById, hx]
      · exact List.forall₂_same.2 (fun a _ => Or.inl rfl)
    · simp only [hx, Bool.false_eq_true, if_false]
      refine List.Forall₂.cons (Or.inl rfl) (ih.imp ?_)
      intro a b hab
      rcases hab with h | ⟨h1, h2⟩
      · exact Or.inl h
      · refine Or.inr ⟨?_, h2⟩
        have hx1 : (x.id == id) = false := by simpa using hx
        simpa [OrderModel.findById, hx1] using h1

theorem forall₂_refl_orders (r : Order → Order → Prop) (h : ∀ a, r a a) (orders : List Order) :
    List.Forall₂ r orders orders :=
  List.forall₂_same.2 (fun a _ => h a)

theorem paymentFindById_updateOne {payments : List Payment} {id : String}
    {f : Payment → Payment} {p : Payment} (hf : ∀ x, (f x).id = x.id)
    (h : PaymentModel.findById payments id = some p) :
    PaymentModel.findById (PaymentModel.updateOne id f payments) id = some (f p) := by
  unfold PaymentModel.findById at *
  induction payments with
  | nil => simp at h
  | cons x rest ih =>
    simp only [List.find?_cons] at h
    unfold PaymentModel.updateOne
    by_cases hx : (x.id == id) = true
    · rw [hx] at h
      simp only [Option.some.injEq] at h
      subst h
      have hx2 : ((f x).id == id) = true := by rw [hf]; exact hx
      simp [hx, hx2]
    · have hx1 : (x.id == id) = false := by simpa using hx
      rw [hx1] at h
      simp only [hx1, List.find?_cons, Bool.false_eq_true, if_false]
      exact ih h

theorem find?_filter_of_imp {p q : Order → Bool} (h : ∀ x, p x = true → q x = true)
    (l : List Order) : (l.filter q).find? p = l.find? p := by
  induction l with
  | nil => rfl
  | cons x rest ih =>
    by_cases hq : q x = true
    · rw [List.filter_cons_of_pos hq]
      simp only [List.find?_cons, ih]
    · rw [List.filter_cons_of_neg hq]
      have hp : p x = false := by
        cases hpx : p x with
        | false => rfl
        | true => exact absurd (h x hpx) hq
      simp only [List.find?_cons, hp, ih]

theorem userFindById_id {users : List User} {id : String} {u : User}
    (h : UserModel.findById users id = some u) : u.id = id := by
  unfold UserModel.findById at h
  simpa using List.find?_some h

theorem countNew_append_singleton (orders : List Order) (o : Order) (u : String) :
    countNew (orders ++ [o]) u =
      countNew orders u + if o.user = u ∧ o.status = OrderStatus.NEW then 1 else 0 := by
  unfold countNew
  rw [List.filter_append, List.length_append]
  by_cases h : o.user = u ∧ o.status = OrderStatus.NEW
  · simp [h.1, h.2]
  · have : (o.user == u && o.status == OrderStatus.NEW) = false := by
      simpa [Bool.and_eq_false_iff, imp_iff_not_or] using h
    simp [List.filter_cons, this, h]

theorem filter_updateOne_length_le (p : Order → Bool) (id : String) (f : Order → Order)
    (hf : ∀ x, p (f x) = false) (orders : List Order) :
    ((OrderModel.updateOne id f orders).filter p).length ≤ (orders.filter p).length := by
  induction orders with
  | nil => unfold OrderModel.updateOne; simp
  | cons x rest ih =>
    unfold OrderModel.updateOne
    by_cases hx : (x.id == id) = true
    · simp only [hx, if_true, List.filter_cons, hf x, Bool.false_eq_true, if_false]
      split
      · exact Nat.le_succ _
      · exact Nat.le_refl _
    · simp only [hx, Bool.false_eq_true, if_false, List.filter_cons]
      split
      · simp only [List.length_cons]
        exact Nat.succ_le_succ ih
      · exact ih

theorem countNew_updateOne_le (id : String) (f : Order → Order)
    (hf : ∀ x, (f x).status ≠ OrderStatus.NEW) (orders : List Order) (u : String) :
    countNew (OrderModel.updateOne id f orders) u ≤ countNew orders u := by
  unfold countNew
  apply filter_updateOne_length_le
  intro x
  simp [hf x]

theorem deleteOne_sublist (id : String) (orders : List Order) :
    (OrderModel.deleteOne id orders).Sublist orders := by
  induction orders with
  | nil => unfold OrderModel.deleteOne; exact List.Sublist.slnil
  | cons x rest ih =>
    unfold OrderModel.deleteOne
    by_cases hx : (x.id == id) = true
    · simp only [hx, if_true]
      exact List.sublist_cons_self x rest
    · simp only [hx, Bool.false_eq_true, if_false]
      exact List.Sublist.cons₂ x ih

theorem countNew_deleteOne_le (id : String) (orders : List Order) (u : String) :
    countNew (OrderModel.deleteOne id orders) u ≤ countNew orders u := by
  unfold countNew
  exact (List.Sublist.filter _ (deleteOne_sublist id orders)).length_le

/-! ## Payment recording -/

/-- C1: a pay request whose status is `COMPLETED` (given or defaulted), by a caller who owns a
`NEW` order, leaves the caller's most recently created `NEW` order with status `PAYED` and the
request's `paymentId`, and appends exactly one payment, whose amount is that order's
`totalPrice` and whose order reference is that order. -/
theorem pay_completed_settles_latest_new_order (db : Db) (caller : String) (body : PayBody)
    (newId : String) (hids : UniqueIds db.orders)
    (hstatus : body.status.getD "COMPLETED" = "COMPLETED")
    (hnew : ∃ o ∈ db.orders, o.user = caller ∧ o.status = OrderStatus.NEW) :
    ∃ o p, o ∈ db.orders ∧ o.user = caller ∧ o.status = OrderStatus.NEW ∧
      (∀ o' ∈ db.orders, o'.user = caller → o'.status = OrderStatus.NEW →
        o'.createdAt ≤ o.createdAt) ∧
      OrderModel.findById (pay db caller body newId).2.orders o.id =
        some { o with status := OrderStatus.PAYED, paymentId := some body.paymentId } ∧
      (pay db caller body newId).2.payments = db.payments ++ [p] ∧
      p.amount = o.totalPrice ∧ p.order = o.id ∧
      (pay db caller body newId).1 = .paid o.id p.id "COMPLETED" := by
  obtain ⟨o, hget⟩ := getNewOrderForCurrentUser_isSome hnew
  obtain ⟨hmem, huser, hst, hlatest⟩ := getNewOrderForCurrentUser_spec hget
  have hfind := findById_of_mem hids hmem
  have hupd := findById_updateOne
    (f := fun (x : Order) => { x with paymentId := some body.paymentId, status := OrderStatus.PAYED })
    (fun _ => rfl) hfind
  refine ⟨o, ⟨newId, o.id, caller, body.paymentId, body.method.getD "PayPal", o.totalPrice,
    "COMPLETED"⟩, hmem, huser, hst, hlatest, ?_, ?_, rfl, rfl, ?_⟩
  · simp only [pay, hget, hstatus, if_true]
    exact hupd
  · simp only [pay, hget, hstatus, if_true]
  · simp only [pay, hget, hstatus, if_true]

/-- C2: a pay request whose status is not `COMPLETED`, by a caller who owns a `NEW` order,
appends exactly one payment carrying that status, leaves the order store as it was, and
dispatches no receipt. -/
theorem pay_other_status_only_records_payment (db : Db) (caller : String) (body : PayBody)
    (newId : String) (status : String) (hstatus : body.status = some status)
    (hne : status ≠ "COMPLETED")
    (hnew : ∃ o ∈ db.orders, o.user = caller ∧ o.status = OrderStatus.NEW) :
    ∃ p, (pay db caller body newId).2.payments = db.payments ++ [p] ∧ p.status = status ∧
      (pay db caller body newId).2.orders = db.orders ∧
      (pay db caller body newId).2.receipts = db.receipts := by
  obtain ⟨o, hget⟩ := getNewOrderForCurrentUser_isSome hnew
  refine ⟨⟨newId, o.id, caller, body.paymentId, body.method.getD "PayPal", o.totalPrice,
    status⟩, ?_, rfl, ?_, ?_⟩
  · simp only [pay, hget, hstatus, Option.getD_some, hne, if_false]
  · simp only [pay, hget, hstatus, Option.getD_some, hne, if_false]
  · simp only [pay, hget, hstatus, Option.getD_some, hne, if_false]

theorem pay_completed_settles_latest_new_order_witness :
    ∃ o p, o ∈ dbTwoNew.orders ∧ o.user = "u1" ∧ o.status = OrderStatus.NEW ∧
      (∀ o' ∈ dbTwoNew.orders, o'.user = "u1" → o'.status = OrderStatus.NEW →
        o'.createdAt ≤ o.createdAt) ∧
      OrderModel.findById
          (pay dbTwoNew "u1" ⟨"tx_1", none, none, some "COMPLETED"⟩ "p1").2.orders o.id =
        some { o with status := OrderStatus.PAYED, paymentId := some "tx_1" } ∧
      (pay dbTwoNew "u1" ⟨"tx_1", none, none, some "COMPLETED"⟩ "p1").2.payments = dbTwoNew.payments ++ [p] ∧
      p.amount = o.totalPrice ∧ p.order = o.id ∧
      (pay dbTwoNew "u1" ⟨"tx_1", none, none, some "COMPLETED"⟩ "p1").1 = .paid o.id p.id "COMPLETED" :=
  pay_completed_settles_latest_new_order dbTwoNew "u1"
    ⟨"tx_1", none, none, some "COMPLETED"⟩ "p1"
    (by decide) (by decide) ⟨exOrder "o1" "u1" "NEW" 1, by decide, by decide, by decide⟩

theorem pay_other_status_only_records_payment_witness :
    ∃ p, (pay dbTwoNew "u1" ⟨"tx_1", none, none, some "PENDING"⟩ "p1").2.payments = dbTwoNew.payments ++ [p] ∧
      p.status = "PENDING" ∧
      (pay dbTwoNew "u1" ⟨"tx_1", none, none, some "PENDING"⟩ "p1").2.orders = dbTwoNew.orders ∧
      (pay dbTwoNew "u1" ⟨"tx_1", none, none, some "PENDING"⟩ "p1").2.receipts = dbTwoNew.receipts :=
  pay_other_status_only_records_payment dbTwoNew "u1"
    ⟨"tx_1", none, none, some "PENDING"⟩ "p1"
    "PENDING" rfl (by decide) ⟨exOrder "o1" "u1" "NEW" 1, by decide, by decide, by decide⟩

/-! ## Order creation -/

theorem validateItems_cons_mismatch (foods : List Food) (item : OrderItem) (rest : List OrderItem)
    (h : PriceMismatch foods item) : validateItems foods (item :: rest) = some "Price mismatch!" := by
  obtain ⟨product, q, h1, h2, h3⟩ := h
  simp only [validateItems, h1, h2, ne_eq, h3, not_false_eq_true, if_true]

theorem validateItems_cons_matches (foods : List Food) (item : OrderItem) (rest : List OrderItem)
    (h : ItemMatches foods item) : validateItems foods (item :: rest) = validateItems foods rest := by
  obtain ⟨product, q, h1, h2, h3⟩ := h
  simp only [validateItems, h1, h2, ne_eq, h3, not_true_eq_false, if_false]

theorem validateItems_append_matches (foods : List Food) (pre rest : List OrderItem)
    (h : ∀ i ∈ pre, ItemMatches foods i) :
    validateItems foods (pre ++ rest) = validateItems foods rest := by
  induction pre with
  | nil => rfl
  | cons x xs ih =>
    rw [List.cons_append, validateItems_cons_matches foods x _ (h x (List.mem_cons_self x xs))]
    exact ih (fun i hi => h i (List.mem_cons_of_mem x hi))

theorem validateItems_all_match (foods : List Food) (items : List OrderItem)
    (h : ∀ i ∈ items, ItemMatches foods i) : validateItems foods items = none := by
  have := validateItems_append_matches foods items [] h
  rw [List.append_nil] at this
  rw [this]
  rfl

theorem validateItems_fails_of_mismatch (foods : List Food) (items : List OrderItem)
    (h : ∃ item ∈ items, PriceMismatch foods item) : ∃ msg, validateItems foods items = some msg := by
  induction items with
  | nil => obtain ⟨item, hi, _⟩ := h; simp at hi
  | cons x xs ih =>
    obtain ⟨item, hi, hm⟩ := h
    cases hf : FoodModel.findById foods x.product with
    | none => exact ⟨"Invalid product in cart!", by simp only [validateItems, hf]⟩
    | some product =>
      cases hq : product.quantities.find? (fun q => q.size == x.size) with
      | none => exact ⟨"Invalid size for product!", by simp only [validateItems, hf, hq]⟩
      | some q =>
        by_cases hp : q.price = x.price
        · rw [validateItems_cons_matches foods x xs ⟨product, q, hf, hq, hp⟩]
          rcases List.mem_cons.1 hi with rfl | hr
          · obtain ⟨product2, q2, h1, h2, h3⟩ := hm
            rw [hf] at h1
            cases h1
            rw [hq] at h2
            cases h2
            exact absurd hp h3
          · exact ih ⟨item, hr, hm⟩
        · exact ⟨_, validateItems_cons_mismatch foods x xs ⟨product, q, hf, hq, hp⟩⟩

theorem itemMatches_product_isSome {foods : List Food} {item : OrderItem}
    (h : ItemMatches foods item) : item.product.isSome = true := by
  obtain ⟨product, _, h1, _, _⟩ := h
  cases hp : item.product with
  | none => rw [hp] at h1; simp [FoodModel.findById] at h1
  | some _ => rfl

/-- C3 as stated fails: a cart whose second line claims a wrong price but whose first line names
a product the catalog does not have is rejected with the invalid-product message, not the
price-mismatch one. -/
theorem create_mismatch_after_invalid_product :
    (∃ item ∈ exMixedBody.items, PriceMismatch dbEmpty.foods item) ∧
      create dbEmpty "u1" exMixedBody "o1" 1 = (.badRequest "Invalid product in cart!", dbEmpty) ∧
      (create dbEmpty "u1" exMixedBody "o1" 1).1 ≠ .badRequest "Price mismatch!" := by
  refine ⟨⟨{ product := some "f1", size := "M", price := 500, quantity := 1 }, by decide,
    ⟨{ id := "f1", quantities := [{ size := "M", price := 999 }, { size := "L", price := 1299 }] },
      { size := "M", price := 999 }, by decide, by decide, by decide⟩⟩, by decide, by decide⟩

/-- C3, amended: a create request in which some item claims a price that differs from the
catalog price for its size fails with a 400 validation error and leaves the stores unchanged;
the error is the price-mismatch one when every item before the mismatching item matches the
catalog. -/
theorem create_price_mismatch_rejected (db : Db) (caller : String) (body : CreateBody)
    (newId : String) (now : Nat) (h : ∃ item ∈ body.items, PriceMismatch db.foods item) :
    (∃ msg, create db caller body newId now = (.badRequest msg, db)) ∧
      ∀ pre item post, body.items = pre ++ item :: post →
        (∀ i ∈ pre, ItemMatches db.foods i) → PriceMismatch db.foods item →
        create db caller body newId now = (.badRequest "Price mismatch!", db) := by
  have hne : ¬ body.items.length ≤ 0 := by
    obtain ⟨item, hi, _⟩ := h
    have := List.length_pos_of_mem hi
    omega
  constructor
  · obtain ⟨msg, hmsg⟩ := validateItems_fails_of_mismatch db.foods body.items h
    exact ⟨msg, by simp only [create, hne, if_false, hmsg]⟩
  · intro pre item post hitems hpre hmis
    have hv : validateItems db.foods body.items = some "Price mismatch!" := by
      rw [hitems, validateItems_append_matches db.foods pre _ hpre]
      exact validateItems_cons_mismatch db.foods item post hmis
    simp only [create, hne, if_false, hv]

theorem create_price_mismatch_rejected_witness :
    (∃ msg, create dbEmpty "u1" exMismatchBody "o1" 1 = (.badRequest msg, dbEmpty)) ∧
      ∀ pre item post, exMismatchBody.items = pre ++ item :: post →
        (∀ i ∈ pre, ItemMatches dbEmpty.foods i) → PriceMismatch dbEmpty.foods item →
        create dbEmpty "u1" exMismatchBody "o1" 1 = (.badRequest "Price mismatch!", dbEmpty) :=
  create_price_mismatch_rejected dbEmpty "u1" exMismatchBody "o1" 1
    ⟨{ product := some "f1", size := "L", price := 1, quantity := 1 }, by decide,
      ⟨{ id := "f1", quantities := [{ size := "M", price := 999 }, { size := "L", price := 1299 }] },
        { size := "L", price := 1299 }, by decide, by decide, by decide⟩⟩

/-- C4: a create request with a non-empty item list in which every item names a product of the
catalog, a size the product has and the catalog price of that size succeeds, appends exactly
one order to the order store, and that order's item list is the input item list. -/
theorem create_valid_cart_persists_items (db : Db) (caller : String) (body : CreateBody)
    (newId : String) (now : Nat) (hne : body.items ≠ [])
    (hall : ∀ item ∈ body.items, ItemMatches db.foods item) :
    ∃ o, create db caller body newId now = (.order o, { db with orders := db.orders ++ [o] }) ∧
      o.items = body.items := by
  have hlen : ¬ body.items.length ≤ 0 := by
    have := List.length_pos.2 hne
    omega
  have hv := validateItems_all_match db.foods body.items hall
  have hfilter : body.items.filter (fun item => item.product.isSome) = body.items :=
    List.filter_eq_self.2 (fun item hi => itemMatches_product_isSome (hall item hi))
  have hlen2 : ¬ body.items.length = 0 := by omega
  refine ⟨OrderModel.new newId now
    { body with items := body.items.filter (fun item => item.product.isSome) } caller, ?_, hfilter⟩
  have hlen3 : ¬ (body.items.filter (fun item => item.product.isSome)).length = 0 := by
    rw [hfilter]
    exact hlen2
  simp only [create, hlen, if_false, hv, hlen3]

theorem create_valid_cart_persists_items_witness :
    ∃ o, create dbEmpty "u1" exCreateBody "o1" 1 =
        (.order o, { dbEmpty with orders := dbEmpty.orders ++ [o] }) ∧
      o.items = exCreateBody.items :=
  create_valid_cart_persists_items dbEmpty "u1" exCreateBody "o1" 1 (by decide)
    (fun item hi => by
      have : item = exItem := by simpa [exCreateBody] using hi
      subst this
      exact ⟨{ id := "f1", quantities := [{ size := "M", price := 999 },
        { size := "L", price := 1299 }] }, { size := "M", price := 999 },
        by decide, by decide, by decide⟩)

/-- C5: for a create request that passes validation, whatever other fields the request body
carries (a `status`, a `paymentId`, a `user`), the persisted order has status `NEW` and its owner
is the authenticated caller. -/
theorem create_persists_new_order_of_caller (db : Db) (caller : String) (body : CreateBody)
    (newId : String) (now : Nat) (o : Order)
    (h : (create db caller body newId now).1 = .order o) :
    (create db caller body newId now).2.orders = db.orders ++ [o] ∧
      o.status = OrderStatus.NEW ∧ o.user = caller := by
  by_cases hlen : body.items.length ≤ 0
  · simp only [create, hlen, if_true] at h
    cases h
  · cases hv : validateItems db.foods body.items with
    | some msg =>
      simp only [create, hlen, if_false, hv] at h
      cases h
    | none =>
      by_cases hlen2 : (body.items.filter (fun item => item.product.isSome)).length = 0
      · simp only [create, hlen, if_false, hv, hlen2, if_true] at h
        cases h
      · simp only [create, hlen, if_false, hv, hlen2] at h ⊢
        simp only [Response.order.injEq] at h
        subst h
        exact ⟨rfl, rfl, rfl⟩

theorem create_persists_new_order_of_caller_witness :
    exForgedBody.status = some "PAYED" ∧ exForgedBody.user = some "u2" ∧
      (create dbEmpty "u1" exForgedBody "o1" 1).2.orders =
        dbEmpty.orders ++ [{ exOrder "o1" "u1" "NEW" 1 with paymentId := some "tx_0" }] ∧
      ({ exOrder "o1" "u1" "NEW" 1 with paymentId := some "tx_0" } : Order).status =
        OrderStatus.NEW ∧
      ({ exOrder "o1" "u1" "NEW" 1 with paymentId := some "tx_0" } : Order).user = "u1" :=
  ⟨rfl, rfl,
    create_persists_new_order_of_caller dbEmpty "u1" exForgedBody "o1" 1
      { exOrder "o1" "u1" "NEW" 1 with paymentId := some "tx_0" } (by decide)⟩

/-! ## Admin payment status -/

/-- C6: an admin payment-status request with status `COMPLETED` on an existing payment whose
linked order exists sets the payment's status to `COMPLETED` and dispatches no receipt; when the
linked order is not `PAYED` it becomes `PAYED` with the payment's external `paymentId`, and when
it is already `PAYED` the order store is left unchanged. -/
theorem patchPaymentStatus_completed_settles_order (db : Db) (id : String) (p : Payment)
    (o : Order) (hp : PaymentModel.findById db.payments id = some p)
    (ho : OrderModel.findById db.orders p.order = some o) :
    (patchPaymentStatus db id "COMPLETED").1 = .payment { p with status := "COMPLETED" } ∧
      PaymentModel.findById (patchPaymentStatus db id "COMPLETED").2.payments id =
        some { p with status := "COMPLETED" } ∧
      (patchPaymentStatus db id "COMPLETED").2.receipts = db.receipts ∧
      (o.status ≠ OrderStatus.PAYED →
        OrderModel.findById (patchPaymentStatus db id "COMPLETED").2.orders p.order =
          some { o with status := OrderStatus.PAYED, paymentId := some p.paymentId }) ∧
      (o.status = OrderStatus.PAYED →
        (patchPaymentStatus db id "COMPLETED").2.orders = db.orders) := by
  have hpay := paymentFindById_updateOne
    (f := fun (x : Payment) => { x with status := "COMPLETED" }) (fun _ => rfl) hp
  have hid : o.id = p.order := (findById_mem ho).2
  by_cases hst : o.status = OrderStatus.PAYED
  · have hres : patchPaymentStatus db id "COMPLETED" =
        (.payment { p with status := "COMPLETED" },
          { db with
            payments :=
              PaymentModel.updateOne id (fun p => { p with status := "COMPLETED" }) db.payments }) := by
      simp only [patchPaymentStatus, hp, if_true, ho, ne_eq, hst, not_true_eq_false, if_false]
    rw [hres]
    exact ⟨rfl, hpay, rfl, fun h => absurd hst h, fun _ => rfl⟩
  · have hres : patchPaymentStatus db id "COMPLETED" =
        (.payment { p with status := "COMPLETED" },
          { db with
            payments :=
              PaymentModel.updateOne id (fun p => { p with status := "COMPLETED" }) db.payments
            orders :=
              OrderModel.updateOne o.id
                (fun x => { x with status := OrderStatus.PAYED, paymentId := some p.paymentId })
                db.orders }) := by
      simp only [patchPaymentStatus, hp, if_true, ho, ne_eq, hst, not_false_eq_true]
    rw [hres]
    refine ⟨rfl, hpay, rfl, fun _ => ?_, fun h => absurd h hst⟩
    have ho2 : OrderModel.findById db.orders o.id = some o := by rw [hid]; exact ho
    rw [← hid]
    exact findById_updateOne
      (f := fun (x : Order) => { x with status := OrderStatus.PAYED, paymentId := some p.paymentId })
      (fun _ => rfl) ho2

theorem patchPaymentStatus_completed_settles_order_witness :
    (patchPaymentStatus dbPending "p1" "COMPLETED").1 =
        .payment { id := "p1", order := "o1", user := "u1", paymentId := "tx_1",
                   method := "PayPal", amount := 1998, status := "COMPLETED" } ∧
      PaymentModel.findById (patchPaymentStatus dbPending "p1" "COMPLETED").2.payments "p1" =
        some { id := "p1", order := "o1", user := "u1", paymentId := "tx_1",
               method := "PayPal", amount := 1998, status := "COMPLETED" } ∧
      (patchPaymentStatus dbPending "p1" "COMPLETED").2.receipts = dbPending.receipts ∧
      ((exOrder "o1" "u1" "NEW" 1).status ≠ OrderStatus.PAYED →
        OrderModel.findById (patchPaymentStatus dbPending "p1" "COMPLETED").2.orders "o1" =
          some { exOrder "o1" "u1" "NEW" 1 with
                 status := OrderStatus.PAYED, paymentId := some "tx_1" }) ∧
      ((exOrder "o1" "u1" "NEW" 1).status = OrderStatus.PAYED →
        (patchPaymentStatus dbPending "p1" "COMPLETED").2.orders = dbPending.orders) :=
  patchPaymentStatus_completed_settles_order dbPending "p1"
    { id := "p1", order := "o1", user := "u1", paymentId := "tx_1",
      method := "PayPal", amount := 1998, status := "PENDING" }
    (exOrder "o1" "u1" "NEW" 1) (by decide) (by decide)

/-! ## Tracking -/

/-- C7: for a caller who is not an admin, the track response never contains an order owned by
another user; an order id that only other users' orders carry gets the same `unauthorized`
marker as an order id no order carries; and the response does not depend on the orders of other
users. -/
theorem track_non_admin_sees_only_own_orders (db : Db) (caller : String) (orderId : String)
    (user : User) (hu : UserModel.findById db.users caller = some user)
    (hna : user.isAdmin = false) :
    (∀ po, track db caller orderId = .populated po → po.order.user = caller) ∧
      ((∀ o ∈ db.orders, o.id = orderId → o.user ≠ caller) →
        track db caller orderId = .unauthorized) ∧
      ((∀ o ∈ db.orders, o.id ≠ orderId) → track db caller orderId = .unauthorized) ∧
      (∀ orders2 : List Order,
        orders2.filter (fun o => o.user == caller) = db.orders.filter (fun o => o.user == caller) →
        track { db with orders := orders2 } caller orderId = track db caller orderId) := by
  have huid : user.id = caller := userFindById_id hu
  have hforeign : (∀ o ∈ db.orders, o.id = orderId → o.user ≠ caller) →
      track db caller orderId = .unauthorized := by
    intro hall
    have hnone : db.orders.find?
        (fun o => o.id == orderId && (user.isAdmin || o.user == user.id)) = none := by
      rw [List.find?_eq_none]
      intro o ho
      rw [hna, huid]
      have := hall o ho
      by_cases hid : o.id = orderId
      · simp [hid, this hid]
      · simp [hid]
    simp only [track, hu, hnone]
  refine ⟨?_, hforeign, fun hall => hforeign (fun o ho hid => absurd hid (hall o ho)), ?_⟩
  · intro po hpo
    simp only [track, hu] at hpo
    cases hf : db.orders.find?
        (fun o => o.id == orderId && (user.isAdmin || o.user == user.id)) with
    | none => rw [hf] at hpo; cases hpo
    | some o =>
      rw [hf] at hpo
      simp only [Response.populated.injEq] at hpo
      subst hpo
      have := List.find?_some hf
      rw [hna, huid] at this
      have h2 : o.id = orderId ∧ o.user = caller := by simpa using this
      exact h2.2
  · intro orders2 hfilter
    have key : ∀ l : List Order,
        l.find? (fun o => o.id == orderId && (user.isAdmin || o.user == user.id)) =
          (l.filter (fun o => o.user == caller)).find?
            (fun o => o.id == orderId && (user.isAdmin || o.user == user.id)) := by
      intro l
      symm
      apply find?_filter_of_imp
      intro x hx
      rw [hna, huid] at hx
      simpa using (by simpa using hx : x.id = orderId ∧ x.user = caller).2
    simp only [track, hu]
    rw [key orders2, key db.orders, hfilter]

theorem track_non_admin_sees_only_own_orders_witness :
    (∀ po, track dbTwoNew "u1" "o3" = .populated po → po.order.user = "u1") ∧
      ((∀ o ∈ dbTwoNew.orders, o.id = "o3" → o.user ≠ "u1") →
        track dbTwoNew "u1" "o3" = .unauthorized) ∧
      ((∀ o ∈ dbTwoNew.orders, o.id ≠ "o3") → track dbTwoNew "u1" "o3" = .unauthorized) ∧
      (∀ orders2 : List Order,
        orders2.filter (fun o => o.user == "u1") =
          dbTwoNew.orders.filter (fun o => o.user == "u1") →
        track { dbTwoNew with orders := orders2 } "u1" "o3" = track dbTwoNew "u1" "o3") :=
  track_non_admin_sees_only_own_orders dbTwoNew "u1" "o3" { id := "u1", isAdmin := false }
    (by decide) rfl

/-! ## Status transitions -/

/-- C8 as stated fails: after a checkout, a pending payment and an admin marking the order
`SHIPPED`, the admin payment-status endpoint with `COMPLETED` changes the order's status from
`SHIPPED` to `PAYED`. -/
theorem patchPaymentStatus_changes_shipped_order :
    (run dbEmpty exShippedRun).orders.map (fun o => (o.id, o.status)) = [("o1", "SHIPPED")] ∧
      (patchPaymentStatus (run dbEmpty exShippedRun) "p1" "COMPLETED").2.orders.map
        (fun o => (o.id, o.status)) = [("o1", "PAYED")] ∧
      (step (run dbEmpty exShippedRun) (.patchPaymentStatus "admin" "p1" "COMPLETED")).orders.map
        (fun o => (o.id, o.status)) = [("o1", "PAYED")] ∧
      "SHIPPED" ≠ OrderStatus.NEW := by
  decide

/-- C8, amended: the pay endpoint changes the status of an order only from `NEW` to `PAYED`;
the admin payment-status endpoint changes the status of an order only when that status is not
`PAYED`, and then to `PAYED`. Neither endpoint changes an order that is already `PAYED`: such an
order is left as it was, field by field. Neither endpoint adds, removes or reorders orders. -/
theorem payment_endpoints_only_move_status_to_payed (db : Db) (caller : String)
    (body : PayBody) (newId : String) (id : String) (status : String)
    (hids : UniqueIds db.orders) :
    List.Forall₂
        (fun a b => a.id = b.id ∧
          (a.status ≠ b.status → a.status = OrderStatus.NEW ∧ b.status = OrderStatus.PAYED) ∧
          (a.status = OrderStatus.PAYED → b = a))
        db.orders (pay db caller body newId).2.orders ∧
      List.Forall₂
        (fun a b => a.id = b.id ∧
          (a.status ≠ b.status → a.status ≠ OrderStatus.PAYED ∧ b.status = OrderStatus.PAYED) ∧
          (a.status = OrderStatus.PAYED → b = a))
        db.orders (patchPaymentStatus db id status).2.orders := by
  constructor
  · cases hget : getNewOrderForCurrentUser db.orders caller with
    | none =>
      simp only [pay, hget]
      exact forall₂_refl_orders _ (fun a => ⟨rfl, fun h => absurd rfl h, fun _ => rfl⟩) _
    | some o =>
      obtain ⟨hmem, _, hst, _⟩ := getNewOrderForCurrentUser_spec hget
      have hfind := findById_of_mem hids hmem
      by_cases hc : body.status.getD "COMPLETED" = "COMPLETED"
      · simp only [pay, hget, hc, if_true]
        refine (updateOne_forall₂ o.id _ db.orders).imp ?_
        intro a b hab
        rcases hab with h | ⟨h1, h2⟩
        · subst h
          exact ⟨rfl, fun h => absurd rfl h, fun _ => rfl⟩
        · rw [hfind] at h1
          cases h1
          subst h2
          exact ⟨rfl, fun _ => ⟨hst, rfl⟩,
            fun hp => absurd (hst.symm.trans hp) status_new_ne_payed⟩
      · simp only [pay, hget, hc, if_false]
        exact forall₂_refl_orders _ (fun a => ⟨rfl, fun h => absurd rfl h, fun _ => rfl⟩) _
  · cases hp : PaymentModel.findById db.payments id with
    | none =>
      simp only [patchPaymentStatus, hp]
      exact forall₂_refl_orders _ (fun a => ⟨rfl, fun h => absurd rfl h, fun _ => rfl⟩) _
    | some p =>
      by_cases hc : status = "COMPLETED"
      · cases ho : OrderModel.findById db.orders p.order with
        | none =>
          simp only [patchPaymentStatus, hp, hc, if_true, ho]
          exact forall₂_refl_orders _ (fun a => ⟨rfl, fun h => absurd rfl h, fun _ => rfl⟩) _
        | some o =>
          have hid : o.id = p.order := (findById_mem ho).2
          by_cases hst : o.status = OrderStatus.PAYED
          · simp only [patchPaymentStatus, hp, hc, if_true, ho, ne_eq, hst, not_true_eq_false,
              if_false]
            exact forall₂_refl_orders _
              (fun a => ⟨rfl, fun h => absurd rfl h, fun _ => rfl⟩) _
          · simp only [patchPaymentStatus, hp, hc, if_true, ho, ne_eq, hst, not_false_eq_true]
            refine (updateOne_forall₂ o.id _ db.orders).imp ?_
            intro a b hab
            rcases hab with h | ⟨h1, h2⟩
            · subst h
              exact ⟨rfl, fun h => absurd rfl h, fun _ => rfl⟩
            · rw [hid, ho] at h1
              cases h1
              subst h2
              exact ⟨rfl, fun _ => ⟨hst, rfl⟩, fun hp => absurd hp hst⟩
      · simp only [patchPaymentStatus, hp, hc, if_false]
        exact forall₂_refl_orders _ (fun a => ⟨rfl, fun h => absurd rfl h, fun _ => rfl⟩) _

theorem payment_endpoints_only_move_status_to_payed_witness :
    UniqueIds dbSettled.orders ∧
      List.Forall₂
        (fun a b => a.id = b.id ∧
          (a.status ≠ b.status → a.status = OrderStatus.NEW ∧ b.status = OrderStatus.PAYED) ∧
          (a.status = OrderStatus.PAYED → b = a))
        dbSettled.orders
        (pay dbSettled "u1" ⟨"tx_2", none, none, none⟩ "p2").2.orders ∧
      List.Forall₂
        (fun a b => a.id = b.id ∧
          (a.status ≠ b.status → a.status ≠ OrderStatus.PAYED ∧ b.status = OrderStatus.PAYED) ∧
          (a.status = OrderStatus.PAYED → b = a))
        dbSettled.orders (patchPaymentStatus dbSettled "p1" "COMPLETED").2.orders :=
  ⟨by decide,
    payment_endpoints_only_move_status_to_payed dbSettled "u1" ⟨"tx_2", none, none, none⟩ "p2"
      "p1" "COMPLETED" (by decide)⟩

/-! ## One open order per user -/

/-- C9 as stated fails: a user who owns one `NEW` order and checks out again owns two. -/
theorem create_breaks_at_most_one_new :
    AtMostOneNew dbOneNew.orders ∧
      ¬ AtMostOneNew (create dbOneNew "u1" exCreateBody "o2" 2).2.orders := by
  constructor
  · intro u
    unfold countNew
    exact List.length_filter_le _ _
  · intro h
    have := h "u1"
    revert this
    decide

/-- C9, amended: starting from an order store in which every user owns at most one `NEW` order,
that still holds after a pay request and after a delete request, for every input, and after a
create request whose caller owns no `NEW` order beforehand. -/
theorem at_most_one_new_preserved (db : Db) (payer creator : String) (payBody : PayBody)
    (createBody : CreateBody) (newId : String) (now : Nat) (id : String)
    (h : AtMostOneNew db.orders) :
    AtMostOneNew (pay db payer payBody newId).2.orders ∧
      AtMostOneNew (deleteOrder db id).2.orders ∧
      (countNew db.orders creator = 0 →
        AtMostOneNew (create db creator createBody newId now).2.orders) := by
  refine ⟨?_, ?_, ?_⟩
  · intro u
    cases hget : getNewOrderForCurrentUser db.orders payer with
    | none =>
      simp only [pay, hget]
      exact h u
    | some o =>
      by_cases hc : payBody.status.getD "COMPLETED" = "COMPLETED"
      · simp only [pay, hget, hc, if_true]
        exact Nat.le_trans
          (countNew_updateOne_le o.id _ (fun _ h => status_new_ne_payed h.symm) db.orders u) (h u)
      · simp only [pay, hget, hc, if_false]
        exact h u
  · intro u
    cases hf : OrderModel.findById db.orders id with
    | none =>
      simp only [deleteOrder, hf]
      exact h u
    | some o =>
      simp only [deleteOrder, hf]
      exact Nat.le_trans (countNew_deleteOne_le id db.orders u) (h u)
  · intro hzero u
    by_cases hlen : createBody.items.length ≤ 0
    · simp only [create, hlen, if_true]
      exact h u
    · cases hv : validateItems db.foods createBody.items with
      | some msg =>
        simp only [create, hlen, if_false, hv]
        exact h u
      | none =>
        by_cases hlen2 :
            (createBody.items.filter (fun item => item.product.isSome)).length = 0
        · simp only [create, hlen, if_false, hv, hlen2, if_true]
          exact h u
        · simp only [create, hlen, if_false, hv, hlen2]
          rw [countNew_append_singleton]
          by_cases hu : creator = u
          · subst hu
            rw [hzero]
            split <;> omega
          · have : ¬ ((OrderModel.new newId now
                { createBody with
                  items := createBody.items.filter (fun item => item.product.isSome) }
                creator).user = u ∧
                (OrderModel.new newId now
                  { createBody with
                    items := createBody.items.filter (fun item => item.product.isSome) }
                  creator).status = OrderStatus.NEW) := fun hh => hu hh.1
            rw [if_neg this]
            exact h u

theorem at_most_one_new_preserved_witness :
    countNew dbOneNew.orders "u2" = 0 ∧
      AtMostOneNew (pay dbOneNew "u1" ⟨"tx_1", none, none, none⟩ "x2").2.orders ∧
      AtMostOneNew (deleteOrder dbOneNew "o1").2.orders ∧
      (countNew dbOneNew.orders "u2" = 0 →
        AtMostOneNew (create dbOneNew "u2" exCreateBody "x2" 2).2.orders) :=
  ⟨by decide,
    at_most_one_new_preserved dbOneNew "u1" "u2" ⟨"tx_1", none, none, none⟩ exCreateBody "x2" 2
      "o1" (fun u => by
        unfold countNew
        exact List.length_filter_le _ _)⟩

/-! ## Route order -/

/-- C10 fails on the code: `GET /user-purchase-count` is handled by the route `/:status?`, which
is registered earlier, with `status = 'user-purchase-count'`. For a caller with one `PAYED`
order the router answers with an empty list of orders, while the count handler, which is never
reached, would answer with the count 1. For no state, caller or query is the answer a count. -/
theorem get_user_purchase_count_is_shadowed :
    dispatch .GET ["user-purchase-count"] = some (.listByStatus, ["user-purchase-count"]) ∧
      serveGet ["NEW", "PAYED"] dbPaid "u1" ["user-purchase-count"]
        { user := none, status := none, fromTime := none, toTime := none } = .orders [] ∧
      userPurchaseCount dbPaid "u1" = .count 1 ∧
      ∀ allStatus db caller query n,
        serveGet allStatus db caller ["user-purchase-count"] query ≠ .count n := by
  refine ⟨by decide, by decide, by decide, ?_⟩
  intro allStatus db caller query n
  have hd : dispatch .GET ["user-purchase-count"] =
      some (.listByStatus, ["user-purchase-count"]) := by decide
  simp only [serveGet, hd, listByStatus]
  cases UserModel.findById db.users caller with
  | none => intro h; cases h
  | some user => intro h; cases h

end OrderRouter
